import Mathlib

/-!
# Verification of the structured-data web scraper core

Shallow embedding of the heuristic table-discovery / row-normalization /
pagination-continuation logic of the repository (src/main.js, src/routes.js)
together with proofs settling the frozen claims about it.

Conventions of the embedding:
* DOM strings are Lean `String`s; character classes of the JavaScript regexes
  are modelled explicitly (`\s` as the usual JS whitespace characters,
  `\d` as ASCII digits).
* JavaScript truthiness is modelled by `truthy`; `x || y` by the
  corresponding `jsOr*` helpers (`0`, `""`, `null`, `undefined` falsy).
* `undefined` field access is `Option.none`; member access on `null`
  raises, which is modelled in the `Except` monad where the source has
  no guard (main.js `processApiData`).
-/

namespace Scraper

/-- JavaScript `\s` whitespace class (the characters relevant to the model:
space, tab, newline, carriage return, form feed, vertical tab, NBSP). -/
def jsWs (c : Char) : Bool :=
  c = ' ' || c = '\t' || c = '\n' || c = '\x0d' || c = '\x0c' || c = '\x0b' || c = ' '

/-- `String.replace(/\s+/g, ' ')`: collapse every whitespace run to one space.
The boolean state records whether the previous character was whitespace. -/
def collapseWsAux : Bool → List Char → List Char
  | _, [] => []
  | prevWs, c :: cs =>
    if jsWs c then
      if prevWs then collapseWsAux true cs
      else ' ' :: collapseWsAux true cs
    else c :: collapseWsAux false cs

/-- `String.replace(/\[\d+\]/g, '')`: delete bracketed digit runs such as
`[1]`, `[23]` (reference markers).  The second argument is `some ds` while
scanning a candidate `[digits` sequence (digits held reversed). -/
def stripRefsAux : List Char → Option (List Char) → List Char
  | [], none => []
  | [], some ds => '[' :: ds.reverse
  | c :: cs, none =>
    if c = '[' then stripRefsAux cs (some [])
    else c :: stripRefsAux cs none
  | c :: cs, some ds =>
    if c.isDigit then stripRefsAux cs (some (c :: ds))
    else if c = ']' && !ds.isEmpty then stripRefsAux cs none
    else if c = '[' then ('[' :: ds.reverse) ++ stripRefsAux cs (some [])
    else ('[' :: ds.reverse) ++ (c :: stripRefsAux cs none)

/-- `String.trim()` over the JS whitespace class. -/
def jsTrimList (l : List Char) : List Char :=
  ((l.dropWhile jsWs).reverse.dropWhile jsWs).reverse

def jsTrim (s : String) : String := String.mk (jsTrimList s.data)

/-- main.js `cleanText`: strip `[digits]` reference markers, collapse
whitespace runs to single spaces, trim the ends. -/
def cleanText (s : String) : String :=
  String.mk (jsTrimList (collapseWsAux false (stripRefsAux s.data none)))

/-- main.js `cleanNumericValue`: `text.replace(/[^\d.-]/g, '').trim()` —
drop every character that is not an ASCII digit, `.` or `-`, then trim. -/
def cleanNumericValue (s : String) : String :=
  String.mk (jsTrimList (s.data.filter (fun c => c.isDigit || c = '.' || c = '-')))

/-- Substring test (`String.prototype.includes`) on character lists. -/
def listContainsSub (hay pat : List Char) : Bool :=
  hay.tails.any (fun t => pat.isPrefixOf t)

def lowerChars (s : String) : List Char := s.data.map Char.toLower

/-- The alternatives of the numeric-column regex
`/rank|number|count|total|sum|avg|population|percent|rate|ratio|index|score|rating/i`. -/
def numericHeaderWords : List String :=
  ["rank", "number", "count", "total", "sum", "avg", "population",
   "percent", "rate", "ratio", "index", "score", "rating"]

/-- `regex.test(header)` for the numeric-column regex: some alternative is a
case-insensitive substring of the header. -/
def isNumericHeader (h : String) : Bool :=
  numericHeaderWords.any (fun w => listContainsSub (lowerChars h) w.data)

/-- `/^[\d.,\-+%]+$/.test(cellText.replace(/\s/g, ''))`: after deleting all
whitespace, the text is non-empty and made only of digits, `.`, `,`, `-`,
`+`, `%`. -/
def isNumericShaped (s : String) : Bool :=
  let t := s.data.filter (fun c => !jsWs c)
  !t.isEmpty && t.all (fun c => c.isDigit || c = '.' || c = ',' || c = '-' || c = '+' || c = '%')

/-- `parseInt(s, 10)`: skip leading whitespace, optional sign, then a
non-empty ASCII digit run; `NaN` (here `none`) if no digit follows. -/
def jsParseIntDigits : List Char → Option Nat → Option Nat
  | [], acc => acc
  | c :: cs, acc =>
    if c.isDigit then
      jsParseIntDigits cs (some ((acc.getD 0) * 10 + (c.toNat - '0'.toNat)))
    else acc

def jsParseInt (s : String) : Option Int :=
  match s.data.dropWhile jsWs with
  | '-' :: rest => (jsParseIntDigits rest none).map (fun n => -(n : Int))
  | '+' :: rest => (jsParseIntDigits rest none).map (fun n => (n : Int))
  | l => (jsParseIntDigits l none).map (fun n => (n : Int))

/-! ## DOM model for tables

A cell records its tag (`th`/`td`), its raw `textContent`, and the raw
`textContent` of its first descendant `<a>` if any (`none` when the cell
contains no hyperlink).  A table holds an optional `<thead>` section, an
optional `<tbody>` section and the `<tr>` children outside both, in document
order `thead`, `tbody`, loose rows.  `id`/`className` are the DOM attribute
strings (`""` when absent, as in the DOM). -/

inductive CellTag where
  | th
  | td
deriving DecidableEq, Repr

structure DomCell where
  tag : CellTag
  text : String
  linkText : Option String := none
deriving DecidableEq, Repr

structure DomRow where
  cells : List DomCell
deriving DecidableEq, Repr

structure DomTable where
  id : String := ""
  className : String := ""
  thead : Option (List DomRow) := none
  tbody : Option (List DomRow) := none
  looseRows : List DomRow := []
deriving DecidableEq, Repr

/-- `row.querySelectorAll('td')`. -/
def tdsOf (r : DomRow) : List DomCell := r.cells.filter (fun c => c.tag = CellTag.td)

/-- `row.querySelectorAll('th')`. -/
def thsOf (r : DomRow) : List DomCell := r.cells.filter (fun c => c.tag = CellTag.th)

/-- `table.querySelectorAll('tr')`: every `<tr>` descendant in document
order. -/
def allTrs (t : DomTable) : List DomRow :=
  t.thead.getD [] ++ t.tbody.getD [] ++ t.looseRows

/-- main.js `extractTableRows`: rows come from the `<tbody>` when one exists,
else from all `<tr>` descendants of the table. -/
def rowsForExtraction (t : DomTable) : List DomRow :=
  match t.tbody with
  | some rs => rs
  | none => allTrs t

/-- main.js `extractTableRows` start index: skip as many leading rows as the
`<thead>` has `<tr>`s when a `<thead>` exists; otherwise skip one row when
the first row contains `<th>` cells. -/
def startIndex (t : DomTable) (allRows : List DomRow) : Nat :=
  match t.thead with
  | some theadRows => max 0 theadRows.length
  | none =>
    match allRows with
    | r :: _ => if (thsOf r).length > 0 then 1 else 0
    | [] => 0

/-- main.js `extractCellText`: prefer the cleaned text of the cell's first
hyperlink, else the cleaned text of the cell itself. -/
def extractCellText (c : DomCell) : String :=
  match c.linkText with
  | some lt => cleanText lt
  | none => cleanText c.text

/-- Column name of the cell at `i`: `headers[i]` when `headers` is non-null
and long enough, else `Column_{i+1}` (main.js `extractTableRows`). -/
def colName (headers : Option (List String)) (i : Nat) : String :=
  match headers with
  | some hs =>
    match hs.get? i with
    | some h => h
    | none => "Column_" ++ toString (i + 1)
  | none => "Column_" ++ toString (i + 1)

/-- Value stored for a cell: `cleanNumericValue` when the column name matches
the numeric-column regex and the cleaned text is numeric-shaped, else the
cleaned text verbatim (main.js `extractTableRows`, numeric branch). -/
def cellValue (header : String) (c : DomCell) : String :=
  let cellText := extractCellText c
  if isNumericHeader header && isNumericShaped cellText then
    cleanNumericValue cellText
  else cellText

/-- JavaScript property assignment `obj[k] = v` on an object represented as
an insertion-ordered association list: update in place if the key exists,
else append. -/
def jsSet : List (String × String) → String → String → List (String × String)
  | [], k, v => [(k, v)]
  | (k', v') :: rest, k, v =>
    if k' = k then (k, v) :: rest else (k', v') :: jsSet rest k v

/-- JavaScript property read `obj[k]` on the association-list model. -/
def jsLookup (r : List (String × String)) (k : String) : Option String :=
  (r.find? (fun p => p.1 = k)).map (fun p => p.2)

/-- The `(columnName, storedValue)` pairs of a row's `<td>` cells, in order,
the first cell carrying index `i` (the `cells.forEach((cell, cellIndex))`
loop of main.js `extractTableRows`). -/
def rowCells (i : Nat) (headers : Option (List String)) : List DomCell → List (String × String)
  | [] => []
  | c :: cs => (colName headers i, cellValue (colName headers i) c) :: rowCells (i + 1) headers cs

/-- The record object built for one row (`rowData`). -/
def rowRecord (headers : Option (List String)) (cells : List DomCell) : List (String × String) :=
  (rowCells 0 headers cells).foldl (fun r kv => jsSet r kv.1 kv.2) []

/-- main.js `extractTableRows`: `[]` when the selector matches no table; else
drop the header rows, skip rows without `<td>` cells, and build one record
per surviving row. -/
def extractTableRows (t? : Option DomTable) (headers : Option (List String)) :
    List (List (String × String)) :=
  match t? with
  | none => []
  | some t =>
    let allRows := rowsForExtraction t
    (allRows.drop (startIndex t allRows)).filterMap (fun r =>
      let cells := tdsOf r
      if cells.isEmpty then none else some (rowRecord headers cells))

/-- `table.querySelector('tr:first-child')`: the first `<tr>` (document
order) that is the first child of its parent.  With children ordered
`thead`, `tbody`, loose rows, that is the `thead`'s first row, else the
`tbody`'s first row, else — only when neither section element is present —
the first loose row. -/
def firstChildTr (t : DomTable) : Option DomRow :=
  match t.thead with
  | some (r :: _) => some r
  | some [] =>
    match t.tbody with
    | some (r :: _) => some r
    | _ => none
  | none =>
    match t.tbody with
    | some (r :: _) => some r
    | some [] => none
    | none => t.looseRows.head?

/-- Header texts of a list of header cells: cleaned `textContent`, empty
texts replaced by `Column_{index+1}` (distinct DOM nodes make `indexOf`
positional). -/
def headerTexts (cells : List DomCell) : List String :=
  cells.enum.map (fun p =>
    let s := cleanText p.2.text
    if s = "" then "Column_" ++ toString (p.1 + 1) else s)

/-- main.js `extractTableHeaders` on a present table. -/
def headersOfTable (t : DomTable) : List String :=
  let theadThs : List DomCell :=
    match t.thead with
    | some (r :: _) => thsOf r
    | _ => []
  if !theadThs.isEmpty then headerTexts theadThs
  else
    let headerRow? : Option DomRow :=
      match t.tbody with
      | some rs => rs.head?
      | none => firstChildTr t
    let cells : List DomCell :=
      match headerRow? with
      | some r => let b := thsOf r; if !b.isEmpty then b else tdsOf r
      | none => []
    if !cells.isEmpty then headerTexts cells
    else
      let firstDataRow? : Option DomRow :=
        match t.tbody with
        | some (r :: _) => some r
        | _ => firstChildTr t
      match firstDataRow? with
      | some r => (List.range (tdsOf r).length).map (fun i => "Column_" ++ toString (i + 1))
      | none => []

/-- main.js `extractTableHeaders`: `null` (`none`) when the selector matches
no table, else the resolved header list. -/
def extractTableHeaders (t? : Option DomTable) : Option (List String) :=
  match t? with
  | none => none
  | some t => some (headersOfTable t)

/-! ## Table discovery (main.js `findTargetTable`) and the scoring of
routes.js `identifyAndExtractTables` -/

/-- Split a character list on whitespace, dropping empty pieces (the
accumulator holds the current token reversed). -/
def splitWsAux : List Char → List Char → List String
  | [], acc => if acc.isEmpty then [] else [String.mk acc.reverse]
  | c :: cs, acc =>
    if jsWs c then
      if acc.isEmpty then splitWsAux cs []
      else String.mk acc.reverse :: splitWsAux cs []
    else splitWsAux cs (c :: acc)

/-- `classList` tokens of a table: the `className` split on whitespace. -/
def classTokens (t : DomTable) : List String :=
  splitWsAux t.className.data []

/-- `table.classList.contains(c)` / matching the selector `table.c`. -/
def hasClass (t : DomTable) (c : String) : Bool :=
  classTokens t |>.contains c

structure TargetResult where
  found : Bool
  selector : Option String := none
  reason : String
deriving DecidableEq, Repr

/-- `table.querySelectorAll('tbody > tr').length`: `<tr>` children of the
`<tbody>`; `0` when the table has no `<tbody>`. -/
def tbodyRowCount (t : DomTable) : Nat := (t.tbody.getD []).length

/-- `className.replace(/\s+/g, '.')`: whitespace runs become single dots. -/
def classNameDotsAux : Bool → List Char → List Char
  | _, [] => []
  | prevWs, c :: cs =>
    if jsWs c then
      if prevWs then classNameDotsAux true cs
      else '.' :: classNameDotsAux true cs
    else c :: classNameDotsAux false cs

/-- Selector generated for the fallback tier of `findTargetTable`:
`#id`, else `.className-with-dots`, else `table:nth-of-type(i+1)`. -/
def genSelector (i : Nat) (t : DomTable) : String :=
  let tableId := if t.id ≠ "" then "#" ++ t.id else ""
  let tableClass :=
    if t.className ≠ "" then "." ++ String.mk (classNameDotsAux false t.className.data)
    else ""
  if tableId ≠ "" then tableId
  else if tableClass ≠ "" then tableClass
  else "table:nth-of-type(" ++ toString (i + 1) ++ ")"

/-- The `bestTable`/`maxRows` scan of `findTargetTable` strategy 3: walk the
tables keeping the first one whose `tbody > tr` count strictly exceeds the
running maximum (initially `0`). -/
def scanBest : List (Nat × DomTable) → Option (Nat × DomTable) → Nat →
    Option (Nat × DomTable) × Nat
  | [], best, m => (best, m)
  | (i, t) :: rest, best, m =>
    if m < tbodyRowCount t then scanBest rest (some (i, t)) (tbodyRowCount t)
    else scanBest rest best m

/-- The result built from the strategy-3 scan: found when a best table
exists and its row count exceeds 5. -/
def fallbackResult : Option (Nat × DomTable) × Nat → TargetResult
  | (some (i, t), maxRows) =>
    if 5 < maxRows then
      { found := true, selector := some (genSelector i t),
        reason := "Selected table with " ++ toString maxRows ++ " rows (highest row count)" }
    else { found := false, selector := none, reason := "No suitable table found" }
  | (none, _) => { found := false, selector := none, reason := "No suitable table found" }

/-- main.js `findTargetTable`: first a table with both `wikitable` and
`sortable` classes, else any `wikitable`, else the table with the highest
`tbody > tr` count provided that count exceeds 5; otherwise not found. -/
def findTargetTable (tables : List DomTable) : TargetResult :=
  match tables.find? (fun t => hasClass t "wikitable" && hasClass t "sortable") with
  | some _ =>
    { found := true, selector := some "table.wikitable.sortable",
      reason := "Found wikitable sortable" }
  | none =>
    match tables.find? (fun t => hasClass t "wikitable") with
    | some _ =>
      { found := true, selector := some "table.wikitable", reason := "Found wikitable" }
    | none => fallbackResult (scanBest tables.enum none 0)

/-- `table.querySelectorAll('th').length`: all `<th>` descendants. -/
def thCount (t : DomTable) : Nat :=
  ((allTrs t).map (fun r => (thsOf r).length)).sum

/-- The per-table priority score of routes.js `identifyAndExtractTables`:
class-substring bonuses on the lowercased `className`, plus
`min(allTrCount, 50)`, plus twice the `<th>` count. -/
def tableScore (t : DomTable) : Nat :=
  let cn := lowerChars t.className
  (if listContainsSub cn "wikitable".data then 50 else 0) +
  (if listContainsSub cn "sortable".data then 30 else 0) +
  (if listContainsSub cn "data".data then 20 else 0) +
  (if listContainsSub cn "grid".data then 20 else 0) +
  (if listContainsSub cn "list".data then 15 else 0) +
  min (allTrs t).length 50 +
  2 * thCount t

/-- Modelled from the spec: the fallback-tier table choice as claim C2 states
it — the table of maximal weighted score, ties broken by first document
order — for comparison with the source's `findTargetTable`. -/
def claimScoreBestIndex (tables : List DomTable) : Option Nat :=
  let m := (tables.map tableScore).foldr max 0
  (tables.enum.find? (fun p => tableScore p.2 = m)).map (fun p => p.1)

/-! ## JSON values and the three `processApiData` variants -/

inductive JsVal where
  | null
  | bool (b : Bool)
  | num (n : Int)
  | str (s : String)
  | arr (xs : List JsVal)
  | obj (fields : List (String × JsVal))

/-- JavaScript truthiness (objects and arrays are truthy, including `[]`). -/
def truthy : JsVal → Bool
  | .null => false
  | .bool b => b
  | .num n => n ≠ 0
  | .str s => s ≠ ""
  | .arr _ => true
  | .obj _ => true

def JsVal.isArr : JsVal → Bool
  | .arr _ => true
  | _ => false

def JsVal.isObj : JsVal → Bool
  | .obj _ => true
  | _ => false

/-- Property read `v[k]` where `undefined` is `none`; never used on `null`
(see `jsGetE` for the raising variant). -/
def jsGet (v : JsVal) (k : String) : Option JsVal :=
  match v with
  | .obj fs => (fs.find? (fun p => p.1 = k)).map (fun p => p.2)
  | _ => none

/-- Truthiness of a possibly-`undefined` value. -/
def truthyOpt (o : Option JsVal) : Bool :=
  match o with
  | some v => truthy v
  | none => false

def isArrOpt (o : Option JsVal) : Bool :=
  match o with
  | some v => v.isArr
  | none => false

/-- Property read in the `Except` monad: reading a property of `null` raises
a `TypeError`, as in JavaScript. -/
def jsGetE (v : JsVal) (k : String) : Except String (Option JsVal) :=
  match v with
  | .null => .error ("TypeError: Cannot read properties of null (reading '" ++ k ++ "')")
  | .obj fs => .ok ((fs.find? (fun p => p.1 = k)).map (fun p => p.2))
  | _ => .ok none

/-- First own field whose value is a non-empty array (the
`for (const field of fields)` scan of the routes.js variants). -/
def scanNonEmptyArrayField (v : JsVal) : Option JsVal :=
  match v with
  | .obj fs => ((fs.find? (fun p =>
      match p.2 with
      | .arr (_ :: _) => true
      | _ => false)).map (fun p => p.2))
  | _ => none

/-- First own field whose value is an array of any length (the scan of the
main.js variant, which has no non-emptiness requirement). -/
def scanArrayField (v : JsVal) : Option JsVal :=
  match v with
  | .obj fs => ((fs.find? (fun p => p.2.isArr)).map (fun p => p.2))
  | _ => none

/-- routes.js:153 `processApiData` body (inside its `try`): null guard, then
top-level array, then `data`, then `results`, then `items`, then the
ASHA branch on a truthy `results`, then the non-empty-array-field scan,
else wrap the body in a one-element array. -/
def processApiDataCore_v1 (b : JsVal) (apiType : Option String) : Except String JsVal :=
  if !truthy b then .ok (.arr [])
  else if b.isArr then .ok b
  else
    match jsGetE b "data" with
    | .error e => .error e
    | .ok d =>
      if truthyOpt d && isArrOpt d then .ok (d.getD .null)
      else
        match jsGetE b "results" with
        | .error e => .error e
        | .ok r =>
          if truthyOpt r && isArrOpt r then .ok (r.getD .null)
          else
            match jsGetE b "items" with
            | .error e => .error e
            | .ok it =>
              if truthyOpt it && isArrOpt it then .ok (it.getD .null)
              else if apiType = some "asha" && truthyOpt r then .ok (r.getD .null)
              else if b.isObj then
                match scanNonEmptyArrayField b with
                | some v => .ok v
                | none => .ok (.arr [b])
              else .ok (.arr [b])

/-- routes.js:153 `processApiData` with its `catch` (returns `[]`). -/
def processApiData_v1 (b : JsVal) (apiType : Option String) : JsVal :=
  match processApiDataCore_v1 b apiType with
  | .ok v => v
  | .error _ => .arr []

/-- routes.js:1059 `processApiData` body (inside its `try`): null guard,
top-level array, then the ASHA branch on a truthy `results`, then
`results`, then `data`, then `items`, then the non-empty-array-field
scan, else wrap. -/
def processApiDataCore_v2 (b : JsVal) (apiType : Option String) : Except String JsVal :=
  if !truthy b then .ok (.arr [])
  else if b.isArr then .ok b
  else
    match jsGetE b "results" with
    | .error e => .error e
    | .ok r =>
      if apiType = some "asha" && truthyOpt r then .ok (r.getD .null)
      else if truthyOpt r && isArrOpt r then .ok (r.getD .null)
      else
        match jsGetE b "data" with
        | .error e => .error e
        | .ok d =>
          if truthyOpt d && isArrOpt d then .ok (d.getD .null)
          else
            match jsGetE b "items" with
            | .error e => .error e
            | .ok it =>
              if truthyOpt it && isArrOpt it then .ok (it.getD .null)
              else if b.isObj then
                match scanNonEmptyArrayField b with
                | some v => .ok v
                | none => .ok (.arr [b])
              else .ok (.arr [b])

/-- routes.js:1059 `processApiData` with its `catch` (returns `[]`). -/
def processApiData_v2 (b : JsVal) (apiType : Option String) : JsVal :=
  match processApiDataCore_v2 b apiType with
  | .ok v => v
  | .error _ => .arr []

/-- main.js:755 `processApiData`: no null guard and no `try`/`catch` —
top-level array, then `data`, then the ASHA branch on a truthy `results`,
then the any-array-field scan (no non-emptiness check), else wrap. -/
def processApiData_main (b : JsVal) (apiType : Option String) : Except String JsVal :=
  if b.isArr then .ok b
  else
    match jsGetE b "data" with
    | .error e => .error e
    | .ok d =>
      if truthyOpt d && isArrOpt d then .ok (d.getD .null)
      else
        match jsGetE b "results" with
        | .error e => .error e
        | .ok r =>
          if apiType = some "asha" && truthyOpt r then .ok (r.getD .null)
          else if b.isObj then
            match scanArrayField b with
            | some v => .ok v
            | none => .ok (.arr [b])
          else .ok (.arr [b])

/-! ## Pagination continuation: HTML (`handlePagination`) and API
(`handleApiPagination`, and the blocks of main.js `extractApiData`) -/

/-- `x || d` for an optional number, where `0` is falsy. -/
def jsOrNat (o : Option Nat) (d : Nat) : Nat :=
  match o with
  | some n => if n = 0 then d else n
  | none => d

/-- `x || d` for an optional string, where `""` is falsy. -/
def jsOrStr (o : Option String) (d : String) : String :=
  match o with
  | some s => if s = "" then d else s
  | none => d

structure PaginationInfo where
  found : Bool
  selector : Option String := none
  url : Option String := none
deriving DecidableEq, Repr

structure HtmlUserData where
  label : Option String := none
  isNextPage : Bool := false
  previousPage : Option String := none
  pagesProcessed : List String := []
  pageNumber : Option Nat := none
deriving DecidableEq, Repr

structure HtmlRequest where
  url : String
  userData : HtmlUserData
deriving DecidableEq, Repr

/-- routes.js `handlePagination` (both copies; they differ only in the
default label, passed here as `defaultLabel`): when a next-page URL was
found and is not yet in `pagesProcessed`, enqueue it with the current URL
appended to `pagesProcessed` and the page number bumped; otherwise enqueue
nothing. -/
def handlePagination (defaultLabel : String) (req : HtmlRequest) (pag : PaginationInfo) :
    Option HtmlRequest :=
  if pag.found then
    match pag.url with
    | some nextPageUrl =>
      if nextPageUrl = "" then none
      else if req.userData.pagesProcessed.contains nextPageUrl then none
      else
        some
          { url := nextPageUrl,
            userData :=
              { req.userData with
                label := some (jsOrStr req.userData.label defaultLabel),
                isNextPage := true,
                previousPage := some req.url,
                pagesProcessed := req.userData.pagesProcessed ++ [req.url],
                pageNumber := some (jsOrNat req.userData.pageNumber 1 + 1) } }
    | none => none
  else none

/-- `userData` of an API-mode request (the fields `handleApiPagination`
reads and writes; `body` holds only the numeric fields the ASHA idiom
updates). -/
structure ApiUserData where
  label : Option String := none
  page : Option Nat := none
  processedUrls : List String := []
  apiType : Option String := none
  firstResult : Option Nat := none
  body : List (String × Int) := []
  paginationType : Option String := none
  pageParamName : Option String := none
deriving DecidableEq, Repr

structure ApiRequest where
  url : String
  userData : ApiUserData
deriving DecidableEq, Repr

/-- `{ ...body, k: n }` on the numeric-field body model. -/
def bodySet : List (String × Int) → String → Int → List (String × Int)
  | [], k, v => [(k, v)]
  | (k', v') :: rest, k, v =>
    if k' = k then (k, v) :: rest else (k', v') :: bodySet rest k v

/-- `apiResponse.nextPage || apiResponse.next` as a URL string: the model
assumes providers supply next-page URLs as strings (a truthy non-string
value is not modelled). -/
def respNextUrl (resp : JsVal) : Option String :=
  match jsGet resp "nextPage" with
  | some (.str s) => if s ≠ "" then some s else nextOf resp
  | some v => if truthy v then none else nextOf resp
  | none => nextOf resp
where
  nextOf (resp : JsVal) : Option String :=
    match jsGet resp "next" with
    | some (.str s) => if s ≠ "" then some s else none
    | _ => none

/-- `apiResponse.pagination && apiResponse.pagination.totalPages`: the
total-pages number when the response declares one (truthy: non-zero). -/
def respTotalPages (resp : JsVal) : Option Int :=
  match jsGet resp "pagination" with
  | some pg =>
    if truthy pg then
      match jsGet pg "totalPages" with
      | some (.num tp) => if tp ≠ 0 then some tp else none
      | _ => none
    else none
  | none => none

/-- `apiResponse.results?.length || 10`. -/
def respResultsPerPage (resp : JsVal) : Nat :=
  match jsGet resp "results" with
  | some (.arr xs) => if xs.length = 0 then 10 else xs.length
  | _ => 10

/-- `apiResponse.totalCount || apiResponse.totalCountFiltered` as a number
(`none` when both are absent or falsy). -/
def respTotalItems (resp : JsVal) : Option Int :=
  match jsGet resp "totalCount" with
  | some (.num n) => if n ≠ 0 then some n else totalFiltered resp
  | _ => totalFiltered resp
where
  totalFiltered (resp : JsVal) : Option Int :=
    match jsGet resp "totalCountFiltered" with
    | some (.num n) => if n ≠ 0 then some n else none
    | _ => none

/-- `currentResults && currentResults.length > 0` on a `processApiData`
result. -/
def hasRecords (v : JsVal) : Bool :=
  match v with
  | .arr xs => xs.length > 0
  | .str s => s.length > 0
  | _ => false

/-- The decision part of routes.js `handleApiPagination`: the `hasNextPage`
flag, the computed `nextPageUrl` (`none` models JavaScript `null`), and the
`userData` as possibly mutated by the ASHA branch (its `body.firstResult`
update).  `setParam url name value` models
`new URL(url).searchParams.set(name, String(value))` followed by
`url.toString()`. -/
def apiPaginationDecision (setParam : String → String → Nat → String)
    (req : ApiRequest) (resp : JsVal) : Bool × Option String × ApiUserData :=
  let currentPage := jsOrNat req.userData.page 1
  let nextPage := currentPage + 1
  match respNextUrl resp with
  | some u => (true, some u, req.userData)
  | none =>
    match respTotalPages resp with
    | some tp => (decide ((currentPage : Int) < tp), none, req.userData)
    | none =>
      if req.userData.apiType = some "asha" then
        let resultsPerPage := respResultsPerPage resp
        let offset := req.userData.firstResult.getD 0
        match respTotalItems resp with
        | some total =>
          if ((offset : Int) + resultsPerPage < total) then
            (true, some req.url,
              { req.userData with
                body := bodySet req.userData.body "firstResult" ((offset : Int) + resultsPerPage) })
          else (false, none, req.userData)
        | none => (false, none, req.userData)
      else if req.userData.paginationType = some "page" then
        let pageParamName := jsOrStr req.userData.pageParamName "page"
        let nextUrl := setParam req.url pageParamName nextPage
        let currentResults := processApiData_v2 resp req.userData.apiType
        (hasRecords currentResults, some nextUrl, req.userData)
      else (false, none, req.userData)

/-- routes.js `handleApiPagination`: compute the decision, then — unless the
computed `nextPageUrl` is a non-null member of `processedUrls` — enqueue
`nextPageUrl || request.url` with the current URL appended to
`processedUrls` and `page` bumped.  (`processedUrls.includes(null)` is
`false`, so a `null` `nextPageUrl` is never suppressed.) -/
def handleApiPagination (setParam : String → String → Nat → String)
    (req : ApiRequest) (resp : JsVal) : Option ApiRequest :=
  match apiPaginationDecision setParam req resp with
  | (hasNextPage, nextPageUrl, userData') =>
    if hasNextPage && (nextPageUrl.getD req.url ≠ "") then
      if (match nextPageUrl with
          | some u => req.userData.processedUrls.contains u
          | none => false) then
        none
      else
        some
          { url := nextPageUrl.getD req.url,
            userData :=
              { userData' with
                label := some "api",
                page := some (jsOrNat req.userData.page 1 + 1),
                processedUrls := req.userData.processedUrls ++ [req.url] } }
    else none

/-- `apiParams.k || d` on the numeric-field model of `apiParams`. -/
def paramNumOr (apiParams : List (String × Int)) (k : String) (d : Int) : Int :=
  match (apiParams.find? (fun p => p.1 = k)).map (fun p => p.2) with
  | some n => if n = 0 then d else n
  | none => d

/-- `apiResponse.pagination.totalResults || 0` as a number. -/
def pgTotalResults (pg : JsVal) : Int :=
  match jsGet pg "totalResults" with
  | some (.num n) => if n ≠ 0 then n else 0
  | _ => 0

/-- The pagination blocks at the end of main.js `extractApiData`
(lines 692–737): the generic `pagination.nextPage` block and the ASHA
offset block; each may enqueue one request `(url, nextApiParams)`, with
`apiParams` modelled by its numeric fields. -/
def apiContinuations_main (resp : JsVal) (apiParams : List (String × Int))
    (apiType : Option String) (url : String) : List (String × List (String × Int)) :=
  let blk1 :=
    match jsGet resp "pagination" with
    | some pg =>
      if truthy pg && truthyOpt (jsGet pg "nextPage") then
        [(url, bodySet apiParams "page" (paramNumOr apiParams "page" 1 + 1))]
      else []
    | none => []
  let blk2 :=
    if apiType = some "asha" then
      match jsGet resp "pagination" with
      | some pg =>
        if truthy pg then
          let currentStart := paramNumOr apiParams "firstResult" 0
          let pageSize := paramNumOr apiParams "numberOfResults" 10
          if currentStart + pageSize < pgTotalResults pg then
            [(url, bodySet apiParams "firstResult" (currentStart + pageSize))]
          else []
        else []
      | none => []
    else []
  blk1 ++ blk2

/-! ## `checkForPagination` and the routes.js default handler -/

/-- A candidate next-page link: its `textContent` (reading it may raise,
which the link-scan loop defends against) and its `href` (`""` when the
anchor has no href). -/
structure LinkH where
  text : Except String String
  href : String

/-- The page capabilities `checkForPagination` uses.  `qsel` is
`document.querySelector` per selector string (it raises on the non-standard
`:contains(...)` selectors in a real browser); `allLinks` is
`document.querySelectorAll('a')`; `pagLinks` is
`document.querySelectorAll('.pagination a, .pager a')`; `currentPageEl` is
the `textContent` of the current-page element, `none` when absent.  A raise
in `allLinks` aborts the whole `page.evaluate` (that line is outside every
inner `try`). -/
structure PageH where
  qsel : String → Except String (Option LinkH)
  allLinks : Except String (List LinkH)
  pagLinks : Except String (List LinkH)
  currentPageEl : Except String (Option String)

/-- The fixed selector list of `checkForPagination`. -/
def nextPageSelectors : List String :=
  ["a.next",
   "a[rel=\"next\"]",
   "a:contains(\"Next\")",
   "a:contains(\"next\")",
   "a:contains(\"→\")",
   "a[aria-label=\"Next\"]",
   ".pagination a:last-child",
   ".wikitable + .navbox a:contains(\"next\")",
   "nav.pagination a.active + a",
   "ul.pager li.next a",
   "a.PagedList-skipToNext",
   ".pagination .next a",
   "a[title=\"Next page\"]"]

/-- The per-selector loop: an error evaluating one selector is swallowed and
the next selector is tried; a match must also have a truthy `href`. -/
def findBySelectors (p : PageH) : List String → Option (String × String)
  | [] => none
  | s :: rest =>
    match p.qsel s with
    | .error _ => findBySelectors p rest
    | .ok none => findBySelectors p rest
    | .ok (some l) =>
      if l.href ≠ "" then some (s, l.href) else findBySelectors p rest

/-- The any-link scan: links whose text contains `next` (case-insensitive)
and whose `href` is truthy; a raise reading one link's text is swallowed. -/
def findNextTextLink : List LinkH → Option String
  | [] => none
  | l :: ls =>
    match l.text with
    | .error _ => findNextTextLink ls
    | .ok t =>
      if t ≠ "" && listContainsSub (t.data.map Char.toLower) "next".data && l.href ≠ "" then
        some l.href
      else findNextTextLink ls

/-- The numeric-pagination inner loop: the first page link whose parsed text
is `cur + 1`; reading a link text here is *not* individually defended, so a
raise aborts the numeric block. -/
def numericScan (cur : Int) : List LinkH → Except String (Option String)
  | [] => .ok none
  | l :: ls =>
    match l.text with
    | .error e => .error e
    | .ok t =>
      match jsParseInt (jsTrim t) with
      | some n => if n = cur + 1 then .ok (some l.href) else numericScan cur ls
      | none => numericScan cur ls

/-- The numeric-pagination block, whose own `try` swallows every raise. -/
def numericBlock (p : PageH) : Option (String × String) :=
  let r : Except String (Option (String × String)) := do
    let pls ← p.pagLinks
    let cur? ← p.currentPageEl
    match cur?, pls with
    | some ctext, _ :: _ =>
      match jsParseInt (jsTrim ctext) with
      | some cur =>
        match ← numericScan cur pls with
        | some href => pure (some ("page=" ++ toString (cur + 1), href))
        | none => pure none
      | none => pure none
    | _, _ => pure none
  match r with
  | .ok v => v
  | .error _ => none

/-- The body of the `page.evaluate` inside `checkForPagination`. -/
def checkForPaginationEval (p : PageH) : Except String PaginationInfo :=
  match findBySelectors p nextPageSelectors with
  | some (sel, url) => .ok { found := true, selector := some sel, url := some url }
  | none =>
    match p.allLinks with
    | .error e => .error e
    | .ok links =>
      match findNextTextLink links with
      | some url =>
        .ok { found := true, selector := some "textContent=\"next\"", url := some url }
      | none =>
        match numericBlock p with
        | some (sel, url) => .ok { found := true, selector := some sel, url := some url }
        | none => .ok { found := false }

/-- routes.js `checkForPagination`: the outer `try`/`catch` turns any raise
of the evaluation into `{ found: false }`. -/
def checkForPagination (p : PageH) : PaginationInfo :=
  match checkForPaginationEval p with
  | .ok r => r
  | .error _ => { found := false }

/-- One record of the hardcoded municipality extraction
(`'2023 Rank'`, `'Municipalities'`, `'Designation'`). -/
structure MuniRecord where
  rank : String
  municipalities : String
  designation : String
deriving DecidableEq, Repr

/-- `document.querySelector('table.wikitable.sortable')`. -/
def firstWikitableSortable (tables : List DomTable) : Option DomTable :=
  tables.find? (fun t => hasClass t "wikitable" && hasClass t "sortable")

/-- `textContent.trim()` then `replace(/[^\d]/g, '')`. -/
def digitsOnly (s : String) : String := String.mk (s.data.filter Char.isDigit)

/-- The `page.evaluate` of routes.js `extractStructuredData` (lines 268–355):
`none` models the `{ error: 'Table not found' }` object (not an array);
otherwise rows with at least 3 `<td>` cells become fixed-schema records. -/
def municipalityEval (tables : List DomTable) : Option (List MuniRecord) :=
  match firstWikitableSortable tables with
  | none => none
  | some t =>
    let allRows := rowsForExtraction t
    some ((allRows.drop (startIndex t allRows)).filterMap (fun r =>
      let cells := tdsOf r
      match cells.get? 0, cells.get? 1, cells.get? 2 with
      | some c0, some c1, some c2 =>
        some
          { rank := digitsOnly (jsTrim c0.text),
            municipalities :=
              match c1.linkText with
              | some lt => jsTrim lt
              | none => jsTrim c1.text,
            designation := jsTrim c2.text }
      | _, _, _ => none))

/-- The last-resort direct extraction (lines 362–385): rows of every
`table.wikitable.sortable`'s `<tbody>`, with at least 3 `<td>` cells, no
link preference, no header skipping. -/
def directExtractionEval (tables : List DomTable) : List MuniRecord :=
  ((tables.filter (fun t => hasClass t "wikitable" && hasClass t "sortable")).flatMap
      (fun t => t.tbody.getD [])).filterMap (fun r =>
    let cells := tdsOf r
    match cells.get? 0, cells.get? 1, cells.get? 2 with
    | some c0, some c1, some c2 =>
      some
        { rank := jsTrim (digitsOnly c0.text),
          municipalities := jsTrim c1.text,
          designation := jsTrim c2.text }
    | _, _, _ => none)

/-- A dataset item pushed by the routes.js default-handler path (the
narrative `block_1_output` strings are presentation and not modelled). -/
inductive OutBatch where
  | muni (rows : List MuniRecord)
  | direct (rows : List MuniRecord)
deriving DecidableEq, Repr

/-- The external browser operations `extractStructuredData` awaits, each of
which may reject, plus the DOM for the pure `page.evaluate` bodies and the
pagination capabilities. -/
structure BrowserOracle where
  waitBody : Except String Unit
  screenshot : String → Except String Unit
  title : Except String String
  dom : List DomTable
  pag : PageH

/-- The pagination step shared by both success paths: `checkForPagination`,
then `handlePagination` when something was found (its surrounding `try`
never fires because `checkForPagination` already catches). -/
def paginationStep (req : HtmlRequest) (b : BrowserOracle) : Option HtmlRequest :=
  let pi := checkForPagination b.pag
  if pi.found then handlePagination "municipality-table" req pi else none

/-- routes.js `extractStructuredData` (lines 206–458): wait for the body,
screenshots, title, the table-count and scroll evaluations, then the
municipality extraction; on an empty/failed extraction try the direct
extraction; push the produced batch and run the pagination step.  No
`try`/`catch` guards the step sequence, so any rejecting await propagates. -/
def extractStructuredData_routes (req : HtmlRequest) (b : BrowserOracle) :
    Except String (List OutBatch × Option HtmlRequest) :=
  match b.waitBody with
  | .error e => .error e
  | .ok _ =>
    match b.screenshot "page-initial.png" with
    | .error e => .error e
    | .ok _ =>
      match b.title with
      | .error e => .error e
      | .ok _ =>
        match b.screenshot "page-scrolled.png" with
        | .error e => .error e
        | .ok _ =>
          match municipalityEval b.dom with
          | some (r :: rs) =>
            match b.screenshot "success.png" with
            | .error e => .error e
            | .ok _ => .ok ([OutBatch.muni (r :: rs)], paginationStep req b)
          | _ =>
            match directExtractionEval b.dom with
            | r :: rs => .ok ([OutBatch.direct (r :: rs)], paginationStep req b)
            | [] =>
              match b.screenshot "error-extraction.png" with
              | .error e => .error e
              | .ok _ => .ok ([], none)

/-- The routes.js default handler (lines 6–11): it awaits
`extractStructuredData` with no `try`/`catch`, so its rejections
propagate out of the handler. -/
def defaultHandlerRoutes (req : HtmlRequest) (b : BrowserOracle) :
    Except String (List OutBatch × Option HtmlRequest) :=
  extractStructuredData_routes req b

/-! ## Concrete fixtures used by the claim theorems and witnesses -/

/-- A Wikipedia-style table: one `<th>` header row `Population`/`Name`, one
data row `1,234`/`1,234`, all inside the `<tbody>`. -/
def tC4 : DomTable :=
  { tbody := some
      [ { cells := [⟨CellTag.th, "Population", none⟩, ⟨CellTag.th, "Name", none⟩] },
        { cells := [⟨CellTag.td, "1,234", none⟩, ⟨CellTag.td, "1,234", none⟩] } ] }

def cellsC4 : List DomCell := [⟨CellTag.td, "1,234", none⟩, ⟨CellTag.td, "1,234", none⟩]

/-- A table with no `<thead>` and no `<th>` cells at all: headers must come
from the first row's `<td>` cells. -/
def tC5 : DomTable :=
  { tbody := some
      [ { cells := [⟨CellTag.td, "A", none⟩, ⟨CellTag.td, "B", none⟩] },
        { cells := [⟨CellTag.td, "1", none⟩, ⟨CellTag.td, "2", none⟩] } ] }

/-- A table whose only row has no cells. -/
def tC5empty : DomTable := { tbody := some [⟨[]⟩] }

def rowsOfTds (n : Nat) : List DomRow :=
  (List.range n).map (fun _ => ⟨[⟨CellTag.td, "x", none⟩]⟩)

/-- No data-related class, ten body rows: weighted score 10. -/
def tC2a : DomTable := { tbody := some (rowsOfTds 10) }

/-- Class `data`, six body rows: weighted score 26. -/
def tC2b : DomTable := { className := "data", tbody := some (rowsOfTds 6) }

/-- Both `wikitable` and `sortable` plus an extra class. -/
def tC2c : DomTable :=
  { className := "wikitable sortable jquery-tablesorter", tbody := some (rowsOfTds 2) }

/-- A query-parameter setter for instantiating `handleApiPagination`. -/
def trivialSetParam (u p : String) (n : Nat) : String :=
  u ++ "?" ++ p ++ "=" ++ toString n

/-- A request in the middle of a `totalPages`-idiom chain: its own URL is
already in `processedUrls` (the previous step put it there). -/
def reqC1loop : ApiRequest :=
  { url := "https://api.example.com/items",
    userData := { page := some 2, processedUrls := ["https://api.example.com/items"] } }

def respC1loop : JsVal := .obj [("pagination", .obj [("totalPages", .num 3)])]

/-- The request `handleApiPagination` would enqueue from `reqC1loop`. -/
def childC1loop : ApiRequest :=
  { url := "https://api.example.com/items",
    userData :=
      { label := some "api", page := some 3,
        processedUrls := ["https://api.example.com/items", "https://api.example.com/items"] } }

def reqC1html : HtmlRequest :=
  { url := "https://en.example.org/list", userData := {} }

def childC1html : HtmlRequest :=
  { url := "https://en.example.org/list?page=2",
    userData :=
      { label := some "table", isNextPage := true,
        previousPage := some "https://en.example.org/list",
        pagesProcessed := ["https://en.example.org/list"],
        pageNumber := some 2 } }

def pagC1found : PaginationInfo :=
  { found := true, selector := some "a.next", url := some "https://en.example.org/list?page=2" }

/-- A found link whose target was already visited. -/
def reqC1htmlVisited : HtmlRequest :=
  { url := "https://en.example.org/list?page=2",
    userData := { pagesProcessed := ["https://en.example.org/list?page=2"] } }

def pagC1foundVisited : PaginationInfo :=
  { found := true, selector := some "a.next", url := some "https://en.example.org/list?page=2" }

/-- The claim C3/C6 body holding both a `results` and a `data` array. -/
def bodyC3 : JsVal := .obj [("results", .arr [.str "r"]), ("data", .arr [.str "d"])]

/-- The claim C7 scenario body:
`{"results":[{"id":1},{"id":2}], "pagination":{"totalResults":2}}`. -/
def respC7 : JsVal :=
  .obj [("results", .arr [.obj [("id", .num 1)], .obj [("id", .num 2)]]),
        ("pagination", .obj [("totalResults", .num 2)])]

def paramsC7 : List (String × Int) := [("firstResult", 0), ("numberOfResults", 2)]

def reqC7routes : ApiRequest :=
  { url := "https://api.asha.example/search",
    userData := { apiType := some "asha", firstResult := some 0 } }

/-- A larger total so that the offset idiom does continue. -/
def respC7more : JsVal :=
  .obj [("results", .arr [.num 1, .num 2]), ("totalCount", .num 5)]

def reqC7more : ApiRequest :=
  { url := "https://api.asha.example/search",
    userData := { apiType := some "asha", firstResult := some 0, body := [("firstResult", 0)] } }

/-- A pagination page on which every capability raises. -/
def pagAllFail : PageH :=
  { qsel := fun _ => .error "SyntaxError: not a valid selector",
    allLinks := .error "Execution context was destroyed",
    pagLinks := .error "Execution context was destroyed",
    currentPageEl := .error "Execution context was destroyed" }

/-- A pagination page with nothing on it. -/
def pagTrivial : PageH :=
  { qsel := fun _ => .ok none, allLinks := .ok [], pagLinks := .ok [],
    currentPageEl := .ok none }

def reqC8 : HtmlRequest := { url := "https://en.example.org/list", userData := {} }

/-- A browser whose `waitForSelector('body')` rejects with a timeout. -/
def oracleFailWait : BrowserOracle :=
  { waitBody := .error "TimeoutError: waiting for selector body failed",
    screenshot := fun _ => .ok (),
    title := .ok "", dom := [], pag := pagTrivial }

/-! ## Theorems settling the claims -/

/-- C9: for a selector matching no table, `extractTableRows` returns the
empty sequence while `extractTableHeaders` returns `null` (`none`) — the two
operations disagree on the sentinel for a missing table. -/
theorem C9_missing_table_sentinels :
    (∀ headers : Option (List String), extractTableRows none headers = []) ∧
    extractTableHeaders (none : Option DomTable) = none ∧
    extractTableHeaders (none : Option DomTable) ≠ some [] :=
  ⟨fun _ => rfl, rfl, by simp [extractTableHeaders]⟩

/-- C10: every continuation enqueued by the HTML `handlePagination` carries
`pagesProcessed` equal to the parent's list with the parent's own URL
appended (the next URL itself is not added), and `pageNumber` equal to the
parent's plus one, an absent parent `pageNumber` defaulting to 1.  (The
hypothesis `hpn` excludes the JavaScript-falsy `pageNumber = 0`, which the
pipeline never produces: enqueued page numbers are at least 2.) -/
theorem C10_continuation_userdata (defaultLabel : String) (req : HtmlRequest)
    (pag : PaginationInfo) (child : HtmlRequest)
    (henq : handlePagination defaultLabel req pag = some child)
    (hpn : ∀ n, req.userData.pageNumber = some n → 0 < n) :
    child.userData.pagesProcessed = req.userData.pagesProcessed ++ [req.url] ∧
    child.userData.pageNumber = some (req.userData.pageNumber.getD 1 + 1) := by
  unfold handlePagination at henq
  split at henq
  · split at henq
    next u =>
      split at henq
      · exact absurd henq (by simp)
      · split at henq
        · exact absurd henq (by simp)
        · have hchild := (Option.some.inj henq).symm
          subst hchild
          refine ⟨rfl, ?_⟩
          rcases hp : req.userData.pageNumber with _ | n
          · simp [jsOrNat, hp]
          · have hn := hpn n hp
            simp [jsOrNat, hp, Nat.pos_iff_ne_zero.mp hn]
    next => exact absurd henq (by simp)
  · exact absurd henq (by simp)

/-- Witness for C10 at a concrete continuation step. -/
theorem C10_continuation_userdata_witness :
    childC1html.userData.pagesProcessed =
      reqC1html.userData.pagesProcessed ++ [reqC1html.url] ∧
    childC1html.userData.pageNumber =
      some (reqC1html.userData.pageNumber.getD 1 + 1) :=
  C10_continuation_userdata "table" reqC1html pagC1found childC1html (by decide)
    (by intro n h; simp [reqC1html] at h)

/-- C1, counterexample: in the `totalPages` idiom of `handleApiPagination`
the computed `nextPageUrl` stays `null`, so the membership guard
(`processedUrls.includes(nextPageUrl)`) never fires and the fallback target
`request.url` is enqueued even though it is already in `processedUrls` —
the resolver does not report exhausted for a visited target. -/
theorem C1_counterexample :
    handleApiPagination trivialSetParam reqC1loop respC1loop = some childC1loop ∧
    childC1loop.url ∈ reqC1loop.userData.processedUrls := by
  constructor
  · rfl
  · decide

/-- C1, amended: the visited lists do grow monotonically (each continuation
carries the parent's list with the parent URL appended, in both handlers),
and the already-visited guard holds in HTML mode and, in API mode, exactly
when the computed `nextPageUrl` is non-null. -/
theorem C1_amended :
    (∀ (defaultLabel : String) (req : HtmlRequest) (pag : PaginationInfo)
       (child : HtmlRequest),
       handlePagination defaultLabel req pag = some child →
       child.userData.pagesProcessed = req.userData.pagesProcessed ++ [req.url]) ∧
    (∀ (defaultLabel : String) (req : HtmlRequest) (pag : PaginationInfo) (u : String),
       pag.url = some u → u ∈ req.userData.pagesProcessed →
       handlePagination defaultLabel req pag = none) ∧
    (∀ (setParam : String → String → Nat → String) (req : ApiRequest) (resp : JsVal)
       (child : ApiRequest),
       handleApiPagination setParam req resp = some child →
       child.userData.processedUrls = req.userData.processedUrls ++ [req.url]) ∧
    (∀ (setParam : String → String → Nat → String) (req : ApiRequest) (resp : JsVal)
       (u : String),
       (apiPaginationDecision setParam req resp).2.1 = some u →
       u ∈ req.userData.processedUrls →
       handleApiPagination setParam req resp = none) := by
  refine ⟨?_, ?_, ?_, ?_⟩
  · intro defaultLabel req pag child henq
    unfold handlePagination at henq
    split at henq
    · split at henq
      next u =>
        split at henq
        · exact absurd henq (by simp)
        · split at henq
          · exact absurd henq (by simp)
          · have hchild := (Option.some.inj henq).symm
            subst hchild
            rfl
      next => exact absurd henq (by simp)
    · exact absurd henq (by simp)
  · intro defaultLabel req pag u hu hmem
    unfold handlePagination
    split
    · rw [hu]
      split
      next v heq =>
        injection heq with hv
        subst hv
        by_cases h0 : u = ""
        · simp [h0]
        · simp only [h0, if_false, if_neg]
          rw [if_pos]
          exact List.elem_iff.mpr hmem
      next => rfl
    · rfl
  · intro setParam req resp child henq
    unfold handleApiPagination at henq
    split at henq
    next hasNextPage nextPageUrl userData' _ =>
      split at henq
      · split at henq
        · exact absurd henq (by simp)
        · have hchild := (Option.some.inj henq).symm
          subst hchild
          rfl
      · exact absurd henq (by simp)
  · intro setParam req resp u hdec hmem
    unfold handleApiPagination
    split
    next hasNextPage nextPageUrl userData' heq =>
      rw [heq] at hdec
      have hurl : nextPageUrl = some u := hdec
      subst hurl
      split
      · rw [if_pos]
        exact List.elem_iff.mpr hmem
      · rfl

/-- Witness for the hypothesis-bearing parts of `C1_amended` at concrete
continuation steps. -/
theorem C1_amended_witness :
    childC1html.userData.pagesProcessed =
      reqC1html.userData.pagesProcessed ++ [reqC1html.url] ∧
    handlePagination "table" reqC1htmlVisited pagC1foundVisited = none ∧
    childC1loop.userData.processedUrls =
      reqC1loop.userData.processedUrls ++ [reqC1loop.url] :=
  ⟨C1_amended.1 "table" reqC1html pagC1found childC1html (by decide),
   C1_amended.2.1 "table" reqC1htmlVisited pagC1foundVisited
     "https://en.example.org/list?page=2" (by decide) (by decide),
   C1_amended.2.2.1 trivialSetParam reqC1loop respC1loop childC1loop (by rfl)⟩

/-- When no table's row count exceeds the running maximum, the scan keeps
its accumulator. -/
theorem scanBest_all_le (l : List (Nat × DomTable)) (best : Option (Nat × DomTable))
    (m : Nat) (h : ∀ p ∈ l, tbodyRowCount p.2 ≤ m) : scanBest l best m = (best, m) := by
  induction l generalizing best m with
  | nil => rfl
  | cons a l ih =>
    obtain ⟨i, t⟩ := a
    have hle : tbodyRowCount t ≤ m := h (i, t) (List.mem_cons_self _ _)
    simp only [scanBest]
    rw [if_neg (by omega)]
    exact ih best m (fun p hp => h p (List.mem_cons_of_mem _ hp))

/-- When some table's row count exceeds the running maximum, the scan
settles on the first table attaining the overall maximum. -/
theorem scanBest_first_max (l : List (Nat × DomTable)) (best : Option (Nat × DomTable))
    (m : Nat) (h : ∃ p ∈ l, m < tbodyRowCount p.2) :
    ∃ l₁ p l₂, l = l₁ ++ p :: l₂ ∧
      (scanBest l best m).1 = some p ∧
      tbodyRowCount p.2 = (scanBest l best m).2 ∧
      m < (scanBest l best m).2 ∧
      (∀ q ∈ l₁, tbodyRowCount q.2 < tbodyRowCount p.2) ∧
      (∀ q ∈ l, tbodyRowCount q.2 ≤ tbodyRowCount p.2) := by
  induction l generalizing best m with
  | nil =>
    obtain ⟨p, hp, _⟩ := h
    cases hp
  | cons a l ih =>
    obtain ⟨i, t⟩ := a
    by_cases hgt : m < tbodyRowCount t
    · simp only [scanBest, if_pos hgt]
      by_cases hrest : ∃ p ∈ l, tbodyRowCount t < tbodyRowCount p.2
      · obtain ⟨l₁, p, l₂, hdecomp, h1, h2, h3, h4, h5⟩ :=
          ih (some (i, t)) (tbodyRowCount t) hrest
        refine ⟨(i, t) :: l₁, p, l₂, by rw [hdecomp, List.cons_append], h1, h2,
          by omega, ?_, ?_⟩
        · intro q hq
          rcases List.mem_cons.mp hq with hq | hq
          · rw [hq]
            show tbodyRowCount t < tbodyRowCount p.2
            omega
          · exact h4 q hq
        · intro q hq
          rcases List.mem_cons.mp hq with hq | hq
          · rw [hq]
            show tbodyRowCount t ≤ tbodyRowCount p.2
            omega
          · exact h5 q hq
      · push_neg at hrest
        rw [scanBest_all_le l (some (i, t)) (tbodyRowCount t) hrest]
        refine ⟨[], (i, t), l, rfl, rfl, rfl, hgt, by simp, ?_⟩
        intro q hq
        rcases List.mem_cons.mp hq with hq | hq
        · rw [hq]
        · exact hrest q hq
    · simp only [scanBest, if_neg hgt]
      have hex : ∃ p ∈ l, m < tbodyRowCount p.2 := by
        obtain ⟨p, hp, hpm⟩ := h
        rcases List.mem_cons.mp hp with hp | hp
        · rw [hp] at hpm
          exact absurd hpm hgt
        · exact ⟨p, hp, hpm⟩
      obtain ⟨l₁, p, l₂, hdecomp, h1, h2, h3, h4, h5⟩ := ih best m hex
      have htp : tbodyRowCount t < tbodyRowCount p.2 := by omega
      refine ⟨(i, t) :: l₁, p, l₂, by rw [hdecomp, List.cons_append], h1, h2, h3, ?_, ?_⟩
      · intro q hq
        rcases List.mem_cons.mp hq with hq | hq
        · rw [hq]
          exact htp
        · exact h4 q hq
      · intro q hq
        rcases List.mem_cons.mp hq with hq | hq
        · rw [hq]
          show tbodyRowCount t ≤ tbodyRowCount p.2
          omega
        · exact h5 q hq

/-- C2, counterexample: the table of maximal weighted score does *not* win
`findTargetTable`'s fallback tier — `tC2b` (class `data`, score 26) outscores
`tC2a` (score 10) but `findTargetTable` selects `tC2a`, the table with the
most body rows; and a table is accepted by the first strategy as soon as its
class list *contains* `wikitable` and `sortable`, even with further classes,
so the class set is not exactly `{wikitable, sortable}`. -/
theorem C2_counterexample :
    tableScore tC2b > tableScore tC2a ∧
    findTargetTable [tC2a, tC2b] =
      { found := true, selector := some "table:nth-of-type(1)",
        reason := "Selected table with 10 rows (highest row count)" } ∧
    findTargetTable [tC2c] =
      { found := true, selector := some "table.wikitable.sortable",
        reason := "Found wikitable sortable" } ∧
    "jquery-tablesorter" ∈ classTokens tC2c := by
  refine ⟨by decide, by decide, by decide, by decide⟩

/-- C2, amended: `findTargetTable` accepts the first table whose class list
contains both `wikitable` and `sortable` (containment, not exact set
equality); else any `wikitable`; else its fallback tier picks the table with
the highest `tbody > tr` row count — not the weighted score, which belongs
to `identifyAndExtractTables` (`tableScore`) — requiring that count to
exceed 5, with ties broken by first document order. -/
theorem C2_amended (tables : List DomTable) :
    ((∃ t ∈ tables, hasClass t "wikitable" = true ∧ hasClass t "sortable" = true) →
      findTargetTable tables =
        { found := true, selector := some "table.wikitable.sortable",
          reason := "Found wikitable sortable" }) ∧
    ((∀ t ∈ tables, ¬(hasClass t "wikitable" = true ∧ hasClass t "sortable" = true)) →
     (∃ t ∈ tables, hasClass t "wikitable" = true) →
      findTargetTable tables =
        { found := true, selector := some "table.wikitable",
          reason := "Found wikitable" }) ∧
    ((∀ t ∈ tables, hasClass t "wikitable" = false) →
      (((findTargetTable tables).found = true) ↔ 5 < (scanBest tables.enum none 0).2)) ∧
    ((∀ t ∈ tables, hasClass t "wikitable" = false) →
      ∀ i t, (scanBest tables.enum none 0).1 = some (i, t) →
        ∃ l₁ l₂, tables.enum = l₁ ++ (i, t) :: l₂ ∧
          (∀ q ∈ l₁, tbodyRowCount q.2 < tbodyRowCount t) ∧
          (∀ q ∈ tables.enum, tbodyRowCount q.2 ≤ tbodyRowCount t)) := by
  have hfind1 : ∀ (h : ∀ t ∈ tables, ¬(hasClass t "wikitable" = true ∧ hasClass t "sortable" = true)),
      tables.find? (fun t => hasClass t "wikitable" && hasClass t "sortable") = none := by
    intro h
    rw [List.find?_eq_none]
    intro t ht
    intro hb
    exact h t ht (by simpa [Bool.and_eq_true] using hb)
  refine ⟨?_, ?_, ?_, ?_⟩
  · intro h
    obtain ⟨t, ht, hw, hs⟩ := h
    unfold findTargetTable
    rcases hf : tables.find? (fun t => hasClass t "wikitable" && hasClass t "sortable") with _ | x
    · rw [List.find?_eq_none] at hf
      exact absurd (by rw [Bool.and_eq_true]; exact ⟨hw, hs⟩) (hf t ht)
    · rfl
  · intro h1 h2
    obtain ⟨t, ht, hw⟩ := h2
    unfold findTargetTable
    rw [hfind1 h1]
    rcases hf : tables.find? (fun t => hasClass t "wikitable") with _ | x
    · rw [List.find?_eq_none] at hf
      exact absurd hw (by simpa using hf t ht)
    · rfl
  · intro h
    have h1 : tables.find? (fun t => hasClass t "wikitable" && hasClass t "sortable") = none :=
      hfind1 (fun t ht hb => by rw [h t ht] at hb; exact Bool.false_ne_true hb.1)
    have h2 : tables.find? (fun t => hasClass t "wikitable") = none := by
      rw [List.find?_eq_none]
      intro t ht hb
      rw [h t ht] at hb
      exact Bool.false_ne_true hb
    unfold findTargetTable
    rw [h1, h2]
    rcases hscan : scanBest tables.enum none 0 with ⟨b, m⟩
    rcases b with _ | ⟨i, t⟩
    · simp only [fallbackResult, Bool.false_eq_true, false_iff]
      intro h5
      by_cases hex : ∃ p ∈ tables.enum, 0 < tbodyRowCount p.2
      · obtain ⟨l₁, p, l₂, _, hp1, _, _, _, _⟩ := scanBest_first_max tables.enum none 0 hex
        rw [hscan] at hp1
        exact Option.noConfusion hp1
      · push_neg at hex
        have hall := scanBest_all_le tables.enum none 0 (fun p hp => by
          have := hex p hp
          omega)
        have hm : m = 0 := congrArg Prod.snd (hscan.symm.trans hall)
        omega
    · simp only [fallbackResult]
      by_cases h5 : 5 < m
      · rw [if_pos h5]
        simpa using h5
      · rw [if_neg h5]
        simp only [Bool.false_eq_true, false_iff]
        exact h5
  · intro h i t hfst
    have hex : ∃ p ∈ tables.enum, 0 < tbodyRowCount p.2 := by
      by_contra hex
      push_neg at hex
      have hall := scanBest_all_le tables.enum none 0 (fun p hp => by
        have := hex p hp
        omega)
      have : (scanBest tables.enum none 0).1 = none := by rw [hall]
      rw [hfst] at this
      exact Option.noConfusion this
    obtain ⟨l₁, p, l₂, hdecomp, hp1, hp2, _, hp4, hp5⟩ :=
      scanBest_first_max tables.enum none 0 hex
    rw [hfst] at hp1
    have hp := Option.some.inj hp1
    rw [← hp] at hdecomp hp4 hp5
    exact ⟨l₁, l₂, hdecomp, hp4, hp5⟩

/-- Witness for the hypothesis-bearing parts of `C2_amended` at concrete
pages. -/
theorem C2_amended_witness :
    findTargetTable [tC2c] =
      { found := true, selector := some "table.wikitable.sortable",
        reason := "Found wikitable sortable" } ∧
    (((findTargetTable [tC2a, tC2b]).found = true) ↔
      5 < (scanBest ([tC2a, tC2b]).enum none 0).2) :=
  ⟨(C2_amended [tC2c]).1 ⟨tC2c, by decide, by decide, by decide⟩,
   (C2_amended [tC2a, tC2b]).2.2.1 (by decide)⟩

theorem truthy_of_isArr {v : JsVal} (h : v.isArr = true) : truthy v = true := by
  cases v <;> simp_all [JsVal.isArr, truthy]

theorem jsGetE_of_ne_null {v : JsVal} (k : String) (h : v ≠ JsVal.null) :
    jsGetE v k = .ok (jsGet v k) := by
  cases v <;> simp_all [jsGetE, jsGet]

theorem ne_null_of_truthy {v : JsVal} (h : truthy v = true) : v ≠ JsVal.null := by
  intro hv
  rw [hv] at h
  exact absurd h (by simp [truthy])

/-- C3, counterexample: the routes.js:153 `processApiData` checks `data`
*before* `results`, so a body carrying both a `results` array and a `data`
array normalizes to the `data` array, not the `results` array as the claim
states. -/
theorem C3_counterexample :
    jsGet bodyC3 "results" = some (JsVal.arr [JsVal.str "r"]) ∧
    jsGet bodyC3 "data" = some (JsVal.arr [JsVal.str "d"]) ∧
    processApiData_v1 bodyC3 none = JsVal.arr [JsVal.str "d"] ∧
    JsVal.arr [JsVal.str "d"] ≠ JsVal.arr [JsVal.str "r"] :=
  ⟨rfl, rfl, rfl, by simp⟩

/-- C3, amended: the resolution order the claim describes (array; ASHA
`results`; `results`; `data`; `items`; first non-empty array field; wrap)
is that of the `processApiData` at routes.js:1059, which returns the
`results` array whenever one is present; the variant at routes.js:153
resolves `data` before `results` (its ASHA branch also sits after `items`),
so a body with both arrays yields `data` there. -/
theorem C3_amended :
    (∀ (b r : JsVal) (apiType : Option String),
       b.isArr = false → truthy b = true →
       jsGet b "results" = some r → r.isArr = true →
       processApiData_v2 b apiType = r) ∧
    (∀ (b d : JsVal) (apiType : Option String),
       b.isArr = false → truthy b = true →
       jsGet b "data" = some d → d.isArr = true →
       processApiData_v1 b apiType = d) ∧
    processApiData_v2 bodyC3 none = JsVal.arr [JsVal.str "r"] := by
  refine ⟨?_, ?_, rfl⟩
  · intro b r apiType hnarr htr hres harr
    have hb : b ≠ JsVal.null := ne_null_of_truthy htr
    unfold processApiData_v2 processApiDataCore_v2
    rw [jsGetE_of_ne_null "results" hb, hres]
    simp only [htr, Bool.not_true, Bool.false_eq_true, if_false, hnarr,
      truthyOpt, isArrOpt, truthy_of_isArr harr, harr, Bool.and_self]
    by_cases hat : apiType = some "asha"
    · simp [hat, Option.getD]
    · simp [hat, Option.getD]
  · intro b d apiType hnarr htr hdat harr
    have hb : b ≠ JsVal.null := ne_null_of_truthy htr
    unfold processApiData_v1 processApiDataCore_v1
    rw [jsGetE_of_ne_null "data" hb, hdat]
    simp [htr, hnarr, truthyOpt, isArrOpt, truthy_of_isArr harr, harr, Option.getD]

/-- Witness for the hypothesis-bearing parts of `C3_amended` at the concrete
two-array body. -/
theorem C3_amended_witness :
    processApiData_v2 bodyC3 none = JsVal.arr [JsVal.str "r"] ∧
    processApiData_v1 bodyC3 none = JsVal.arr [JsVal.str "d"] :=
  ⟨C3_amended.1 bodyC3 (JsVal.arr [JsVal.str "r"]) none rfl rfl rfl rfl,
   C3_amended.2.1 bodyC3 (JsVal.arr [JsVal.str "d"]) none rfl rfl rfl rfl⟩

theorem matchScan_ok (b : JsVal) :
    ∃ v, (match scanNonEmptyArrayField b with
          | some v => Except.ok v
          | none => Except.ok (JsVal.arr [b]) : Except String JsVal) = Except.ok v := by
  cases scanNonEmptyArrayField b
  · exact ⟨_, rfl⟩
  · exact ⟨_, rfl⟩

/-- C6, counterexample: the main.js `processApiData` has no null guard and
no `try`/`catch`, so normalizing a `null` body raises a `TypeError` instead
of yielding the empty sequence. -/
theorem C6_counterexample :
    processApiData_main JsVal.null none =
      Except.error "TypeError: Cannot read properties of null (reading 'data')" ∧
    processApiData_main JsVal.null none ≠ Except.ok (JsVal.arr []) :=
  ⟨rfl, by
    intro h
    have h2 : (Except.error "TypeError: Cannot read properties of null (reading 'data')" :
        Except String JsVal) = Except.ok (JsVal.arr []) := h
    exact Except.noConfusion h2⟩

set_option maxHeartbeats 1000000 in
/-- C6, amended: the two routes.js `processApiData` variants never raise
(their bodies already return on every path, so the `catch` is never needed)
and map a `null` body to `[]`; the main.js variant raises on `null`. -/
theorem C6_amended :
    (∀ (b : JsVal) (apiType : Option String), ∃ v, processApiDataCore_v1 b apiType = .ok v) ∧
    (∀ (b : JsVal) (apiType : Option String), ∃ v, processApiDataCore_v2 b apiType = .ok v) ∧
    (∀ apiType, processApiData_v1 JsVal.null apiType = JsVal.arr []) ∧
    (∀ apiType, processApiData_v2 JsVal.null apiType = JsVal.arr []) ∧
    (∃ e, processApiData_main JsVal.null none = .error e) := by
  refine ⟨?_, ?_, fun _ => rfl, fun _ => rfl, ⟨_, rfl⟩⟩
  · intro b apiType
    by_cases ht : truthy b = true
    · have hb := ne_null_of_truthy ht
      unfold processApiDataCore_v1
      rw [jsGetE_of_ne_null "data" hb, jsGetE_of_ne_null "results" hb,
        jsGetE_of_ne_null "items" hb]
      simp only [ht, Bool.not_true]
      split_ifs <;> first | exact ⟨_, rfl⟩ | exact matchScan_ok b
    · have ht' : truthy b = false := by revert ht; cases truthy b <;> simp
      refine ⟨JsVal.arr [], ?_⟩
      simp [processApiDataCore_v1, ht']
  · intro b apiType
    by_cases ht : truthy b = true
    · have hb := ne_null_of_truthy ht
      unfold processApiDataCore_v2
      rw [jsGetE_of_ne_null "results" hb, jsGetE_of_ne_null "data" hb,
        jsGetE_of_ne_null "items" hb]
      simp only [ht, Bool.not_true]
      split_ifs <;> first | exact ⟨_, rfl⟩ | exact matchScan_ok b
    · have ht' : truthy b = false := by revert ht; cases truthy b <;> simp
      refine ⟨JsVal.arr [], ?_⟩
      simp [processApiDataCore_v2, ht']

/-- C7: in the offset/limit idiom a continuation is produced iff
`offset + pageSize < totalCount`, with the next offset `offset + pageSize` —
in main.js `extractApiData`'s ASHA block (offset/page size from `apiParams`,
total from `pagination.totalResults`) and in routes.js
`handleApiPagination`'s case 3 (offset from `userData.firstResult`, page
size from `results.length`, total from `totalCount`/`totalCountFiltered`);
and on the scenario body with `totalResults: 2`, `offset=0`, `pageSize=2`,
both resolvers report exhausted since `0+2 < 2` is false. -/
theorem C7_offset_pagination :
    (∀ (resp pg : JsVal) (apiParams : List (String × Int)) (url : String),
       jsGet resp "pagination" = some pg → truthy pg = true →
       truthyOpt (jsGet pg "nextPage") = false →
       apiContinuations_main resp apiParams (some "asha") url =
         (if paramNumOr apiParams "firstResult" 0 + paramNumOr apiParams "numberOfResults" 10 <
             pgTotalResults pg
          then [(url, bodySet apiParams "firstResult"
                  (paramNumOr apiParams "firstResult" 0 +
                   paramNumOr apiParams "numberOfResults" 10))]
          else [])) ∧
    (∀ (setParam : String → String → Nat → String) (req : ApiRequest) (resp : JsVal)
       (total : Int),
       req.userData.apiType = some "asha" →
       respNextUrl resp = none → respTotalPages resp = none →
       respTotalItems resp = some total →
       req.userData.processedUrls.contains req.url = false →
       req.url ≠ "" →
       (((handleApiPagination setParam req resp).isSome = true) ↔
         ((req.userData.firstResult.getD 0 : Int) + respResultsPerPage resp < total)) ∧
       (∀ child, handleApiPagination setParam req resp = some child →
          child.userData.body =
            bodySet req.userData.body "firstResult"
              ((req.userData.firstResult.getD 0 : Int) + respResultsPerPage resp))) ∧
    apiContinuations_main respC7 paramsC7 (some "asha") "https://api.asha.example/search" = [] ∧
    handleApiPagination trivialSetParam reqC7routes respC7 = none := by
  refine ⟨?_, ?_, rfl, rfl⟩
  · intro resp pg apiParams url hpg htr hnn
    unfold apiContinuations_main
    rw [hpg]
    simp [htr, hnn]
  · intro setParam req resp total hat hnext htp hti hcont hurl
    have hdec : apiPaginationDecision setParam req resp =
        (if ((req.userData.firstResult.getD 0 : Int) + respResultsPerPage resp < total)
         then (true, some req.url,
           { req.userData with
             body := bodySet req.userData.body "firstResult"
               ((req.userData.firstResult.getD 0 : Int) + respResultsPerPage resp) })
         else (false, none, req.userData)) := by
      unfold apiPaginationDecision
      rw [hnext, htp, hti, hat]
      simp
    by_cases hlt : ((req.userData.firstResult.getD 0 : Int) + respResultsPerPage resp < total)
    · rw [if_pos hlt] at hdec
      unfold handleApiPagination
      rw [hdec]
      simp only [Option.getD_some]
      rw [if_pos (by simpa using hurl), if_neg (by
        intro hc
        have h1 : req.userData.processedUrls.contains req.url = true := hc
        rw [hcont] at h1
        exact Bool.noConfusion h1)]
      constructor
      · simp [hlt]
      · intro child hchild
        have := Option.some.inj hchild
        rw [← this]
    · rw [if_neg hlt] at hdec
      unfold handleApiPagination
      rw [hdec]
      constructor
      · constructor
        · intro hs
          exact absurd hs (by simp)
        · intro hc
          exact absurd hc hlt
      · intro child hchild
        exact absurd hchild (by simp)

/-- Witness for the hypothesis-bearing parts of `C7_offset_pagination` at a
response with room for another page. -/
theorem C7_offset_pagination_witness :
    (((handleApiPagination trivialSetParam reqC7more respC7more).isSome = true) ↔
      ((reqC7more.userData.firstResult.getD 0 : Int) + respResultsPerPage respC7more < 5)) ∧
    apiContinuations_main respC7 paramsC7 (some "asha") "https://api.asha.example/search" = [] :=
  ⟨(C7_offset_pagination.2.1 trivialSetParam reqC7more respC7more 5 rfl rfl rfl rfl rfl
      (by decide)).1,
   C7_offset_pagination.2.2.1⟩

/-- C5, counterexample: when headers are resolved from the first row's `<td>`
cells (no `<thead>`, no `<th>` anywhere), main.js `extractTableRows` does
*not* skip that row — there is no `headerConsumedFirstRow` signal — so the
header texts `["A", "B"]` reappear verbatim as the first data record; and
`extractTableHeaders` returns the empty sequence for a table whose only row
has no cells, although the table has a row. -/
theorem C5_counterexample :
    extractTableHeaders (some tC5) = some ["A", "B"] ∧
    (extractTableRows (some tC5) (some ["A", "B"])).head? =
      some [("A", "A"), ("B", "B")] ∧
    extractTableHeaders (some tC5empty) = some [] ∧
    rowsForExtraction tC5empty ≠ [] := by
  refine ⟨by decide, by decide, by decide, by decide⟩

/-- C5, amended: when the headers come from the first row's plain `<td>`
cells, `extractTableHeaders` returns their texts but `extractTableRows`
starts at index 0 (no header-consumed signal exists), so the first record it
produces is the header row itself re-extracted as data; and
`extractTableHeaders` can return the empty sequence for a table that has
rows (a first row without cells). -/
theorem C5_amended (t : DomTable) (r0 : DomRow) (rest : List DomRow)
    (headers : Option (List String))
    (hthead : t.thead = none) (htbody : t.tbody = some (r0 :: rest))
    (hnoth : thsOf r0 = []) (htd : tdsOf r0 ≠ []) :
    extractTableHeaders (some t) = some (headerTexts (tdsOf r0)) ∧
    (extractTableRows (some t) headers).head? = some (rowRecord headers (tdsOf r0)) := by
  obtain ⟨c, cs, hcs⟩ : ∃ c cs, tdsOf r0 = c :: cs := by
    cases h : tdsOf r0 with
    | nil => exact absurd h htd
    | cons c cs => exact ⟨c, cs, rfl⟩
  constructor
  · unfold extractTableHeaders headersOfTable
    dsimp only
    rw [hthead, htbody]
    simp [hnoth, hcs]
  · unfold extractTableRows rowsForExtraction startIndex
    dsimp only
    rw [hthead, htbody]
    simp [hnoth, hcs]

/-- Witness for `C5_amended` at the concrete td-headers table. -/
theorem C5_amended_witness :
    extractTableHeaders (some tC5) =
      some (headerTexts (tdsOf ⟨[⟨CellTag.td, "A", none⟩, ⟨CellTag.td, "B", none⟩]⟩)) ∧
    (extractTableRows (some tC5) (some ["A", "B"])).head? =
      some (rowRecord (some ["A", "B"])
        (tdsOf ⟨[⟨CellTag.td, "A", none⟩, ⟨CellTag.td, "B", none⟩]⟩)) :=
  C5_amended tC5 ⟨[⟨CellTag.td, "A", none⟩, ⟨CellTag.td, "B", none⟩]⟩
    [⟨[⟨CellTag.td, "1", none⟩, ⟨CellTag.td, "2", none⟩]⟩] (some ["A", "B"])
    rfl rfl (by decide) (by decide)

theorem jsSet_append (r : List (String × String)) (k : String) (v : String)
    (h : ∀ p ∈ r, p.1 ≠ k) : jsSet r k v = r ++ [(k, v)] := by
  induction r with
  | nil => rfl
  | cons p rest ih =>
    obtain ⟨k', v'⟩ := p
    have hne : k' ≠ k := h (k', v') (List.mem_cons_self _ _)
    simp only [jsSet]
    rw [if_neg hne, ih (fun q hq => h q (List.mem_cons_of_mem _ hq))]
    rfl

/-- Building a record by repeated JavaScript assignments of pairwise-distinct
keys appends each pair in order. -/
theorem foldl_jsSet_eq_append (kvs : List (String × String)) (acc : List (String × String))
    (hnd : (kvs.map Prod.fst).Nodup)
    (hdisj : ∀ p ∈ acc, ∀ q ∈ kvs, p.1 ≠ q.1) :
    kvs.foldl (fun r kv => jsSet r kv.1 kv.2) acc = acc ++ kvs := by
  induction kvs generalizing acc with
  | nil => simp
  | cons kv rest ih =>
    obtain ⟨k, v⟩ := kv
    rw [List.map_cons, List.nodup_cons] at hnd
    have hstep : jsSet acc k v = acc ++ [(k, v)] :=
      jsSet_append acc k v (fun p hp => hdisj p hp (k, v) (List.mem_cons_self _ _))
    simp only [List.foldl_cons]
    rw [hstep, ih (acc ++ [(k, v)]) hnd.2 ?_]
    · simp
    · intro p hp q hq
      rcases List.mem_append.mp hp with hp | hp
      · exact hdisj p hp q (List.mem_cons_of_mem _ hq)
      · have hpk : p = (k, v) := by simpa using hp
        rw [hpk]
        intro hkq
        exact hnd.1 (hkq ▸ List.mem_map.mpr ⟨q, hq, rfl⟩)

/-- In a record with pairwise-distinct keys, the lookup of the `i`-th key
yields the `i`-th entry. -/
theorem find?_of_get? (kvs : List (String × String)) (i : Nat) (k : String) (v : String)
    (hnd : (kvs.map Prod.fst).Nodup)
    (hget : kvs.get? i = some (k, v)) :
    kvs.find? (fun p => p.1 = k) = some (k, v) := by
  induction kvs generalizing i with
  | nil => simp at hget
  | cons p rest ih =>
    obtain ⟨k', v'⟩ := p
    rw [List.map_cons, List.nodup_cons] at hnd
    rcases i with _ | i
    · have hp : (k', v') = (k, v) := by simpa using hget
      obtain ⟨hk, hv⟩ := Prod.mk.injEq .. ▸ hp
      subst hk
      subst hv
      simp [List.find?]
    · have hget' : rest.get? i = some (k, v) := by simpa using hget
      have hkmem : k ∈ rest.map Prod.fst :=
        List.mem_map.mpr ⟨(k, v), List.get?_mem hget', rfl⟩
      have hk' : k' ≠ k := fun hkk => hnd.1 (hkk ▸ hkmem)
      simp only [List.find?]
      rw [show (decide (k' = k)) = false by simp [hk']]
      exact ih i hnd.2 hget'

/-- The entry built for the cell at offset `j` of the `forEach` loop started
at index `i`. -/
theorem rowCells_get? (headers : Option (List String)) (cells : List DomCell) (i j : Nat) :
    (rowCells i headers cells).get? j =
      (cells.get? j).map
        (fun c => (colName headers (i + j), cellValue (colName headers (i + j)) c)) := by
  induction cells generalizing i j with
  | nil => simp [rowCells]
  | cons c rest ih =>
    rcases j with _ | j
    · simp [rowCells]
    · have hadd : i + (j + 1) = (i + 1) + j := by omega
      simp only [rowCells, List.get?_cons_succ, hadd]
      exact ih (i + 1) j

/-- C4: the stored value of every extracted cell follows the numeric-column
heuristic — `cleanNumericValue` of the cleaned text when the resolved column
name matches the numeric regex and the text is numeric-shaped, else the
cleaned text verbatim (stated for rows whose resolved column names are
pairwise distinct, so the record keeps every assignment); and on the
concrete table the full pipeline stores `"1,234"` as `"1234"` under
`Population` but verbatim under `Name`. -/
theorem C4_numeric_column (headers : Option (List String)) (cells : List DomCell)
    (i : Nat) (c : DomCell)
    (hc : cells.get? i = some c)
    (hnd : ((rowCells 0 headers cells).map Prod.fst).Nodup) :
    jsLookup (rowRecord headers cells) (colName headers i) =
      some (if isNumericHeader (colName headers i) && isNumericShaped (extractCellText c)
            then cleanNumericValue (extractCellText c)
            else extractCellText c) ∧
    extractTableRows (some tC4) (some ["Population", "Name"]) =
      [[("Population", "1234"), ("Name", "1,234")]] := by
  constructor
  · have hfold : rowRecord headers cells = rowCells 0 headers cells := by
      unfold rowRecord
      rw [foldl_jsSet_eq_append _ [] hnd (fun p hp => absurd hp (List.not_mem_nil p))]
      simp
    rw [hfold]
    have hget := rowCells_get? headers cells 0 i
    rw [hc] at hget
    have hfind := find?_of_get? (rowCells 0 headers cells) i
      (colName headers i) (cellValue (colName headers i) c) hnd (by simpa using hget)
    unfold jsLookup
    rw [hfind]
    simp [cellValue]
  · decide

/-- Witness for `C4_numeric_column` at the concrete `Population`/`Name` row. -/
theorem C4_numeric_column_witness :
    jsLookup (rowRecord (some ["Population", "Name"]) cellsC4) "Population" = some "1234" ∧
    jsLookup (rowRecord (some ["Population", "Name"]) cellsC4) "Name" = some "1,234" := by
  constructor
  · exact (C4_numeric_column (some ["Population", "Name"]) cellsC4 0
      ⟨CellTag.td, "1,234", none⟩ (by decide) (by decide)).1
  · exact (C4_numeric_column (some ["Population", "Name"]) cellsC4 1
      ⟨CellTag.td, "1,234", none⟩ (by decide) (by decide)).1

/-- C8, counterexample: the routes.js default handler awaits
`extractStructuredData` with no `try`/`catch`, so a rejecting
`waitForSelector('body')` propagates out of the handler instead of ending in
a result value. -/
theorem C8_counterexample :
    defaultHandlerRoutes reqC8 oracleFailWait =
      Except.error "TimeoutError: waiting for selector body failed" := rfl

/-- C8, amended: pagination detection is indeed failure-proof — when every
selector strategy raises and the link scan raises, `checkForPagination`
returns `{ found: false }` rather than an error — and the records a unit
produces are independent of the pagination page entirely (a pagination
failure cannot abort them); but the routes.js default handler itself does
not catch, so extraction-stage rejections propagate out of it
(`C8_counterexample`). -/
theorem C8_amended :
    (∀ p : PageH,
       (∀ s, ∃ e, p.qsel s = .error e) →
       (∃ e, p.allLinks = Except.error e) →
       checkForPagination p = { found := false }) ∧
    (∀ (req : HtmlRequest) (b : BrowserOracle) (p₁ p₂ : PageH),
       (extractStructuredData_routes req { b with pag := p₁ }).map Prod.fst =
       (extractStructuredData_routes req { b with pag := p₂ }).map Prod.fst) := by
  constructor
  · intro p hq hl
    obtain ⟨e, he⟩ := hl
    obtain ⟨e1, h1⟩ := hq "a.next"
    obtain ⟨e2, h2⟩ := hq "a[rel=\"next\"]"
    obtain ⟨e3, h3⟩ := hq "a:contains(\"Next\")"
    obtain ⟨e4, h4⟩ := hq "a:contains(\"next\")"
    obtain ⟨e5, h5⟩ := hq "a:contains(\"→\")"
    obtain ⟨e6, h6⟩ := hq "a[aria-label=\"Next\"]"
    obtain ⟨e7, h7⟩ := hq ".pagination a:last-child"
    obtain ⟨e8, h8⟩ := hq ".wikitable + .navbox a:contains(\"next\")"
    obtain ⟨e9, h9⟩ := hq "nav.pagination a.active + a"
    obtain ⟨e10, h10⟩ := hq "ul.pager li.next a"
    obtain ⟨e11, h11⟩ := hq "a.PagedList-skipToNext"
    obtain ⟨e12, h12⟩ := hq ".pagination .next a"
    obtain ⟨e13, h13⟩ := hq "a[title=\"Next page\"]"
    have hfbs : findBySelectors p nextPageSelectors = none := by
      simp [nextPageSelectors, findBySelectors,
        h1, h2, h3, h4, h5, h6, h7, h8, h9, h10, h11, h12, h13]
    have heval : checkForPaginationEval p = .error e := by
      unfold checkForPaginationEval
      rw [hfbs, he]
    unfold checkForPagination
    rw [heval]
  · intro req b p₁ p₂
    unfold extractStructuredData_routes
    dsimp only
    cases b.waitBody
    case error => rfl
    case ok =>
      cases b.screenshot "page-initial.png"
      case error => rfl
      case ok =>
        cases b.title
        case error => rfl
        case ok =>
          cases b.screenshot "page-scrolled.png"
          case error => rfl
          case ok =>
            rcases municipalityEval b.dom with _ | (_ | ⟨r, rs⟩)
            · rcases directExtractionEval b.dom with _ | ⟨r', rs'⟩
              · cases b.screenshot "error-extraction.png" <;> rfl
              · rfl
            · rcases directExtractionEval b.dom with _ | ⟨r', rs'⟩
              · cases b.screenshot "error-extraction.png" <;> rfl
              · rfl
            · cases b.screenshot "success.png" <;> rfl

/-- Witness for the hypothesis-bearing part of `C8_amended` on a page whose
every pagination capability raises. -/
theorem C8_amended_witness :
    checkForPagination pagAllFail = { found := false } :=
  C8_amended.1 pagAllFail (fun _ => ⟨"SyntaxError: not a valid selector", rfl⟩)
    ⟨"Execution context was destroyed", rfl⟩

end Scraper
